import Mathlib

/-!
# Verification of `lxc_ssh_setup.py`

A shallow embedding of the convergence logic of `lxc_ssh_setup.py` together
with theorems settling the specification claims about it.

Conventions of the embedding:
* Text is modelled as `List Char`; a file is either absent (`none`) or a list
  of lines / a character list.
* Remote commands are modelled by their effect on an explicit container state;
  where the script ignores a command's exit status, the exit status appears as
  an argument that the model (like the code) never inspects.
* Python's `str.strip`, `str.splitlines`-style line handling, shell command
  substitution (`$(cat f)` strips trailing newlines) and `grep` substring
  matching are modelled by the explicit list functions below.
-/

namespace LxcSsh

/-- The whitespace characters removed by Python `str.strip()` (ASCII range). -/
def isPyWs (c : Char) : Bool :=
  c == ' ' || c == '\t' || c == '\n' || c == '\r' || c == '\x0b' || c == '\x0c'

/-- Python `str.strip()`: drop leading and trailing whitespace. -/
def pyStrip (l : List Char) : List Char :=
  ((l.dropWhile isPyWs).reverse.dropWhile isPyWs).reverse

/-- Shell command substitution `$(cat f)`: trailing newline characters are
stripped from the captured output. -/
def stripTrailNl (l : List Char) : List Char :=
  (l.reverse.dropWhile (fun c => c == '\n')).reverse

/-- Substring matching of `grep PATTERN`: does `p` occur as a contiguous
substring of `l`? -/
def hasSubstr (p : List Char) : List Char → Bool
  | [] => p.isPrefixOf []
  | c :: rest => p.isPrefixOf (c :: rest) || hasSubstr p rest

/-- The directive name grepped for by `set_ssh_password_authentication`. -/
def paDirective : List Char := ("PasswordAuthentication").toList

/-- Drop `p` from the front of `l`, or fail if `p` is not a prefix. -/
def dropPref : List Char → List Char → Option (List Char)
  | [], l => some l
  | _ :: _, [] => none
  | p :: ps, c :: cs => if p == c then dropPref ps cs else none

/-- The `\s` class of the GNU `sed -E` pattern, restricted to the characters that can
occur inside a single line of a config file. -/
def wsChar (c : Char) : Bool := c == ' ' || c == '\t'

/-- Does the line start with `PasswordAuthentication` followed by a whitespace
character (the `(PasswordAuthentication)\s` part of the sed pattern)? -/
def startsPAWs (l : List Char) : Bool :=
  match dropPref paDirective l with
  | some (c :: _) => wsChar c
  | _ => false

/-- Does the line match the sed pattern `^#?(PasswordAuthentication)\s.*`
from line 164 of `lxc_ssh_setup.py`?  The optional leading `#` either
matches a literal `#` first character or matches nothing. -/
def matchesPARegex (l : List Char) : Bool :=
  startsPAWs l || (l.head? == some '#' && startsPAWs l.tail)

/-- One line of the in-place rewrite
`sed -E -i 's|^#?(PasswordAuthentication)\s.*|\1 {status}|'`:
a matching line is replaced by `PasswordAuthentication <status>`, any other
line is left unchanged. -/
def sedLine (status : List Char) (l : List Char) : List Char :=
  if matchesPARegex l then paDirective ++ ' ' :: status else l

/-- The whole-file effect of the sed rewrite (sed applies the substitution to
every line). -/
def sedFile (status : List Char) (lines : List (List Char)) : List (List Char) :=
  lines.map (sedLine status)

/-- The lines printed by `grep PasswordAuthentication /etc/ssh/sshd_config`:
exactly the lines containing the directive name as a substring. -/
def grepPA (lines : List (List Char)) : List (List Char) :=
  lines.filter (hasSubstr paDirective)

/-- The tri-state result of the password-authentication probe
(lines 148-161 of `lxc_ssh_setup.py`). -/
inductive Probe
  | indeterminate
  | satisfied
  | unsatisfied
  deriving DecidableEq

/-- The probe of `set_ssh_password_authentication`: the remote command
`[ -f /etc/ssh/sshd_config ] && grep PasswordAuthentication /etc/ssh/sshd_config || exit 1`
exits nonzero when the file is absent or grep matches nothing (both mapped to
`indeterminate`); otherwise the Python loop scans the grep output for a line
that `startswith` `PasswordAuthentication <status>`. -/
def pwProbe (status : List Char) (cfg : Option (List (List Char))) : Probe :=
  match cfg with
  | none => Probe.indeterminate
  | some lines =>
    if (grepPA lines).isEmpty then Probe.indeterminate
    else if (grepPA lines).any (fun l => (paDirective ++ ' ' :: status).isPrefixOf l)
    then Probe.satisfied
    else Probe.unsatisfied

/-- Message of line 156 of `lxc_ssh_setup.py`. -/
def notConfMsg : List Char := ("SSH not installed or not configured.").toList

/-- Message of line 161 of `lxc_ssh_setup.py`. -/
def alreadySetMsg : List Char := ("Already set to the desired status.").toList

/-- Message of line 173 of `lxc_ssh_setup.py` (`f"PasswordAuthentication set to {status}"`). -/
def pwSetMsg (status : List Char) : List Char :=
  ("PasswordAuthentication set to ").toList ++ status

/-- The `(changed, message)` pair returned by every reconciler. -/
structure Outcome where
  changed : Bool
  msg : List Char
  deriving DecidableEq

/-- The function `set_ssh_password_authentication` (lines 141-173 of `lxc_ssh_setup.py`).
`cfg` is the content of `/etc/ssh/sshd_config` (`none` when absent).
`sedOk` tells whether the remote `sed` rewrite command succeeds — the code
runs it with a bare `subprocess.run` and never reads its exit status, so the
returned outcome cannot depend on it; a failed `sed` leaves the file
unchanged.  `restartExit` is the exit status of the service-restart command,
likewise never inspected and without modelled state effect. -/
def setPwAuth (status : List Char) (cfg : Option (List (List Char)))
    (sedOk : Bool) (restartExit : Nat) : Outcome × Option (List (List Char)) :=
  match pwProbe status cfg, cfg, restartExit with
  | Probe.indeterminate, _, _ => (⟨true, notConfMsg⟩, cfg)
  | Probe.satisfied, _, _ => (⟨false, alreadySetMsg⟩, cfg)
  | Probe.unsatisfied, none, _ => (⟨true, notConfMsg⟩, none)
  | Probe.unsatisfied, some lines, _ =>
      (⟨true, pwSetMsg status⟩, some (if sedOk then sedFile status lines else lines))

/-! ## Helper lemmas -/

theorem dropPref_append (p t : List Char) : dropPref p (p ++ t) = some t := by
  induction p with
  | nil => rfl
  | cons c cs ih => simp [dropPref, ih]

theorem startsPAWs_append (w : Char) (rest : List Char) :
    startsPAWs (paDirective ++ w :: rest) = wsChar w := by
  simp [startsPAWs, dropPref_append]

theorem matchesPARegex_append (w : Char) (rest : List Char) (hw : wsChar w = true) :
    matchesPARegex (paDirective ++ w :: rest) = true := by
  simp [matchesPARegex, startsPAWs_append, hw]

theorem matchesPARegex_hash_append (w : Char) (rest : List Char) (hw : wsChar w = true) :
    matchesPARegex ('#' :: (paDirective ++ w :: rest)) = true := by
  simp [matchesPARegex, startsPAWs_append, hw]

theorem matchesPARegex_directive (status : List Char) :
    matchesPARegex (paDirective ++ ' ' :: status) = true :=
  matchesPARegex_append ' ' status (by decide)

theorem sedLine_eq_directive_iff (status l : List Char) :
    (sedLine status l == paDirective ++ ' ' :: status) = matchesPARegex l := by
  cases h : matchesPARegex l with
  | true => simp [sedLine, h]
  | false =>
    have hl : sedLine status l = l := by simp [sedLine, h]
    rw [hl, beq_eq_false_iff_ne]
    intro he
    rw [he, matchesPARegex_directive] at h
    exact absurd h (by decide)

theorem isPrefixOf_hasSubstr (p l : List Char) (h : p.isPrefixOf l = true) :
    hasSubstr p l = true := by
  cases l with
  | nil => simpa [hasSubstr] using h
  | cons c rest => simp [hasSubstr, h]

theorem directive_prefix_hasSubstr (status l : List Char)
    (h : (paDirective ++ ' ' :: status).isPrefixOf l = true) :
    hasSubstr paDirective l = true := by
  apply isPrefixOf_hasSubstr
  rw [ List.isPrefixOf_iff_prefix] at h ⊢
  exact List.IsPrefix.trans ⟨' ' :: status, rfl⟩ h

/-! ## C4: the sed directive rewrite -/

/-- C4: for the Password-Auth Enforcer, any line of the form
`#PasswordAuthentication<ws>...` or `PasswordAuthentication<ws>...` is
replaced with exactly `PasswordAuthentication <desired>`; any other line is
untouched; the rewrite preserves the number of lines (so no second directive
line is introduced), and the number of exact directive lines in the output
equals the number of matching lines in the input; in particular a config file
containing `#PasswordAuthentication yes` becomes exactly one line
`PasswordAuthentication no` under desired value `no`. -/
theorem c4_directive_rewrite (status rest : List Char) (w : Char) (hw : wsChar w = true) :
    sedLine status (paDirective ++ w :: rest) = paDirective ++ ' ' :: status
    ∧ sedLine status ('#' :: (paDirective ++ w :: rest)) = paDirective ++ ' ' :: status
    ∧ (∀ l, matchesPARegex l = false → sedLine status l = l)
    ∧ (∀ lines, (sedFile status lines).length = lines.length)
    ∧ (∀ lines, (sedFile status lines).countP (fun l => l == paDirective ++ ' ' :: status)
        = lines.countP matchesPARegex)
    ∧ sedFile (("no").toList) [("#PasswordAuthentication yes").toList]
        = [("PasswordAuthentication no").toList] := by
  refine ⟨?_, ?_, ?_, ?_, ?_, ?_⟩
  · simp [sedLine, matchesPARegex_append _ _ hw]
  · simp [sedLine, matchesPARegex_hash_append _ _ hw]
  · intro l hl
    simp [sedLine, hl]
  · intro lines
    simp [sedFile]
  · intro lines
    unfold sedFile
    rw [List.countP_map]
    apply List.countP_congr
    intro l _
    simp only [Function.comp_apply, sedLine_eq_directive_iff]
  · decide

/-- Witness for `c4_directive_rewrite` at a concrete whitespace character. -/
theorem c4_witness :
    sedLine (("no").toList) (paDirective ++ ' ' :: ("yes").toList)
      = paDirective ++ ' ' :: ("no").toList :=
  (c4_directive_rewrite (("no").toList) (("yes").toList) ' ' (by decide)).1

/-! ## C5: the password-auth probe is a prefix match, not an exact match -/

/-- C5 counterexample: with desired value `no`, a config file whose only line
is `PasswordAuthentication nothing` makes the probe report `satisfied`
(because the code uses `str.startswith`), even though no line is exactly
`PasswordAuthentication no` — refuting the claimed exact-equality semantics. -/
theorem c5_counterexample :
    pwProbe (("no").toList) (some [("PasswordAuthentication nothing").toList])
      = Probe.satisfied
    ∧ ¬ (("PasswordAuthentication no").toList
        ∈ [("PasswordAuthentication nothing").toList]) := by
  decide

theorem pwProbe_satisfied_iff (status : List Char) (lines : List (List Char)) :
    pwProbe status (some lines) = Probe.satisfied
      ↔ ∃ l ∈ lines, (paDirective ++ ' ' :: status).isPrefixOf l = true := by
  unfold pwProbe
  by_cases hemp : (grepPA lines).isEmpty
  · simp only [hemp, if_true]
    constructor
    · intro h; cases h
    · rintro ⟨l, hl, hpre⟩
      exfalso
      have hmem : l ∈ grepPA lines :=
        List.mem_filter.mpr ⟨hl, directive_prefix_hasSubstr status l hpre⟩
      rw [List.isEmpty_iff] at hemp
      simp [hemp] at hmem
  · simp only [hemp, if_false, Bool.false_eq_true]
    by_cases hany : (grepPA lines).any (fun l => (paDirective ++ ' ' :: status).isPrefixOf l)
    · simp only [hany, if_true]
      constructor
      · intro _
        obtain ⟨l, hl, hpre⟩ := List.any_eq_true.mp hany
        exact ⟨l, (List.mem_filter.mp hl).1, hpre⟩
      · intro _; trivial
    · simp only [hany, if_false, Bool.false_eq_true]
      constructor
      · intro h; cases h
      · rintro ⟨l, hl, hpre⟩
        exfalso
        apply hany
        exact List.any_eq_true.mpr
          ⟨l, List.mem_filter.mpr ⟨hl, directive_prefix_hasSubstr status l hpre⟩, hpre⟩

/-- C5 (amended): for every config-file content and desired value, the probe
reports `satisfied` iff some line of the file has `PasswordAuthentication
<desired>` as a prefix (so a longer value sharing the desired value as a
prefix is also accepted); an absent file is never `satisfied`. -/
theorem c5_probe_prefix_match (status : List Char) (lines : List (List Char)) :
    (pwProbe status (some lines) = Probe.satisfied
      ↔ ∃ l ∈ lines, (paDirective ++ ' ' :: status).isPrefixOf l = true)
    ∧ pwProbe status none ≠ Probe.satisfied :=
  ⟨pwProbe_satisfied_iff status lines, by simp [pwProbe]⟩

/-! ## C10: the rewrite outcome never inspects the sed / restart exit status -/

/-- C10: once the probe reports `unsatisfied`, `set_ssh_password_authentication`
reports `changed = true` with the success message, whatever the outcome of the
remote `sed` rewrite and of the service restart — the result value is
identical for every combination of those exit statuses, so a remotely failed
rewrite is still reported as a successful configuration change. -/
theorem c10_unsatisfied_always_changed (status : List Char) (lines : List (List Char))
    (sedOk sedOk' : Bool) (rex rex' : Nat)
    (h : pwProbe status (some lines) = Probe.unsatisfied) :
    (setPwAuth status (some lines) sedOk rex).fst = ⟨true, pwSetMsg status⟩
    ∧ (setPwAuth status (some lines) sedOk rex).fst
        = (setPwAuth status (some lines) sedOk' rex').fst := by
  unfold setPwAuth
  rw [h]
  exact ⟨rfl, rfl⟩

/-- Witness for `c10_unsatisfied_always_changed`: a config with
`PasswordAuthentication yes` and desired value `no`, with the sed command
failing remotely, is still reported as changed. -/
theorem c10_witness :
    (setPwAuth (("no").toList) (some [("PasswordAuthentication yes").toList]) false 7).fst
      = ⟨true, pwSetMsg (("no").toList)⟩ :=
  (c10_unsatisfied_always_changed (("no").toList)
    [("PasswordAuthentication yes").toList] false true 7 9 (by decide)).1

/-! ## The authorized-keys merger (`add_ssh_public_keys`) -/

/-- Split a character list at every occurrence of `sep`
(Python `str.split(sep)` / shell `while read` line splitting). -/
def splitOnC (sep : Char) : List Char → List (List Char)
  | [] => [[]]
  | c :: rest =>
    if c == sep then [] :: splitOnC sep rest
    else
      match splitOnC sep rest with
      | s :: ss => (c :: s) :: ss
      | [] => [c :: rest]

/-- Message of line 189 of `lxc_ssh_setup.py` for the default
`key_file='keys.pub'`. -/
def keyFileMissingMsg : List Char := ("Key file 'keys.pub' not found.").toList

/-- Message of line 192 of `lxc_ssh_setup.py`. -/
def keyFileEmptyMsg : List Char := ("Key file is empty.").toList

/-- Message of line 250 of `lxc_ssh_setup.py`. -/
def noChangesMsg : List Char := ("No changes were made to container.").toList

/-- Message of line 252 of `lxc_ssh_setup.py`. -/
def keysAddedMsg : List Char := ("SSH keys successfully added to container.").toList

/-- Message of line 254 of `lxc_ssh_setup.py`
(`f"Failed to add SSH keys to container: {result.stderr.strip()}"`). -/
def failedKeysMsg (stderr : List Char) : List Char :=
  ("Failed to add SSH keys to container: ").toList ++ pyStrip stderr

/-- Result of one `add_ssh_public_keys` invocation: the returned
`(changed, message)` pair, the resulting `/root/.ssh/authorized_keys` file
content (`none` when absent), and whether any remote command was executed
against the container. -/
structure KeysResult where
  outcome : Outcome
  file : Option (List Char)
  remoteInvoked : Bool
  deriving DecidableEq

/-- The script's `EXISTING_KEYS` read: `$(cat "$AUTHORIZED_KEYS")` when the
file exists (command substitution strips trailing newlines), the empty string
otherwise. -/
def readAuth (authFile : Option (List Char)) : List Char :=
  match authFile with
  | some c => stripTrailNl c
  | none => []

/-- The value of `UPDATED_KEYS` when the script reaches the comparison:
`"$KEYS"` in replace mode, and the (unchanged, see `addSshPublicKeys`)
`"$EXISTING_KEYS"` in merge mode. -/
def scriptCandidate (keys existing : List Char) (removeExisting : Bool) : List Char :=
  if removeExisting then keys else existing

/-- The function `add_ssh_public_keys` (lines 176-254 of `lxc_ssh_setup.py`), with the
embedded shell script executed under POSIX `sh` semantics.
`keyFile` is the content of the local `keys.pub` (`none` when absent);
`authFile` is the container's `authorized_keys` file.

The script computes `EXISTING_KEYS=$(cat "$AUTHORIZED_KEYS")`, then in
replace mode sets `UPDATED_KEYS="$KEYS"`.  In merge mode it assigns
`UPDATED_KEYS="$EXISTING_KEYS"` and then pipes `echo "$KEYS"` into a
`while read` loop that appends missing keys to `UPDATED_KEYS` — but the
loop is the downstream end of a pipeline, so it runs in a subshell and its
assignments are discarded: after the loop `UPDATED_KEYS` is still exactly
`EXISTING_KEYS` (see `mergeCandidateSpec` for what the loop was evidently
intended to compute).  If the candidate equals the existing content the
script exits 0 (no write); otherwise it writes `echo "$UPDATED_KEYS" > file`
(appending one newline) and exits 1.  Key material is modelled as plain text
without shell metacharacters. -/
def addSshPublicKeys (keyFile : Option (List Char)) (removeExisting : Bool)
    (authFile : Option (List Char)) : KeysResult :=
  match keyFile with
  | none => ⟨⟨false, keyFileMissingMsg⟩, authFile, false⟩
  | some content =>
    if pyStrip content = [] then ⟨⟨false, keyFileEmptyMsg⟩, authFile, false⟩
    else if scriptCandidate (pyStrip content) (readAuth authFile) removeExisting
        = readAuth authFile then
      ⟨⟨false, noChangesMsg⟩, authFile, true⟩
    else
      ⟨⟨true, keysAddedMsg⟩,
        some (scriptCandidate (pyStrip content) (readAuth authFile) removeExisting ++ ['\n']),
        true⟩

/-- The exit-code handler of `add_ssh_public_keys`
(lines 248-254 of `lxc_ssh_setup.py`): exit 0 is the no-op result, exit 1 the
changed result, anything else the failure result carrying the stripped
stderr text. -/
def handleKeyExit (rc : Nat) (stderr : List Char) : Bool × List Char :=
  if rc = 0 then (false, noChangesMsg)
  else if rc = 1 then (true, keysAddedMsg)
  else (true, failedKeysMsg stderr)

/-- Modelled from the spec (§4.5 step 3, `merge` mode) — the candidate content
the script's `while read` loop was written to compute: the existing content,
followed by each canonical line not already present as an exact line-for-line
match in the existing content, appended at the end in canonical order (each
appended as `"$UPDATED_KEYS\n$key"`). -/
def mergeCandidateSpec (existing keys : List Char) : List Char :=
  (splitOnC '\n' keys).foldl
    (fun acc k => if k ∈ splitOnC '\n' existing then acc else acc ++ '\n' :: k)
    existing

/-! ## C1: merge mode never appends the missing canonical keys -/

/-- C1: with existing authorized keys `A\nB` and canonical keys `B\nC`,
merge mode (`remove_existing=False`) leaves the container file at `A\nB` and
reports "No changes" — the pipeline subshell discards every append — whereas
the content the claim (and the script's own loop) calls for is `A\nB\nC`;
replace mode does yield exactly the canonical set. -/
theorem c1_merge_mode_is_noop :
    addSshPublicKeys (some (['B', '\n', 'C'])) false (some (['A', '\n', 'B']))
      = ⟨⟨false, noChangesMsg⟩, some (['A', '\n', 'B']), true⟩
    ∧ mergeCandidateSpec (['A', '\n', 'B']) (['B', '\n', 'C'])
      = ['A', '\n', 'B', '\n', 'C']
    ∧ addSshPublicKeys (some (['B', '\n', 'C'])) true (some (['A', '\n', 'B']))
      = ⟨⟨true, keysAddedMsg⟩, some (['B', '\n', 'C', '\n']), true⟩ := by
  refine ⟨?_, ?_, ?_⟩ <;> decide

/-! ## C3: the three outcomes are pairwise distinguishable -/

/-- C3: the no-op result (exit 0), the changed result (exit 1) and the failure
result (any other exit status) of `add_ssh_public_keys` are pairwise distinct
values, for every captured stderr text — the caller can always tell the three
outcomes apart from the returned `(changed, message)` pair. -/
theorem c3_outcomes_distinguishable (rc : Nat) (s t u : List Char)
    (h0 : rc ≠ 0) (h1 : rc ≠ 1) :
    handleKeyExit 0 s ≠ handleKeyExit 1 t
    ∧ handleKeyExit 0 s ≠ handleKeyExit rc u
    ∧ handleKeyExit 1 t ≠ handleKeyExit rc u := by
  unfold handleKeyExit
  simp only [if_pos rfl, if_neg h0, if_neg h1, if_neg (by decide : (1 : Nat) ≠ 0)]
  refine ⟨by simp, by simp, ?_⟩
  intro h
  have hmsg : keysAddedMsg = failedKeysMsg u := congrArg Prod.snd h
  rw [keysAddedMsg, failedKeysMsg, pyStrip] at hmsg
  simp [String.toList] at hmsg

/-- Witness for `c3_outcomes_distinguishable` at exit status 2 with a
concrete stderr text. -/
theorem c3_witness :
    handleKeyExit 0 (("e").toList) ≠ handleKeyExit 1 (("e").toList) :=
  (c3_outcomes_distinguishable 2 (("e").toList) (("e").toList) (("boom").toList)
    (by decide) (by decide)).1

/-! ## C8: missing / empty canonical key file -/

/-- C8: when the canonical key file is absent the operation returns the
distinct "not found" no-op result, and when it exists but has no
non-whitespace content it returns the distinct "empty" no-op result; in both
cases the container file is untouched and no remote command is executed; the
two failure messages are distinguishable from each other. -/
theorem c8_key_file_preconditions (re : Bool) (af : Option (List Char))
    (content : List Char) (h : pyStrip content = []) :
    addSshPublicKeys none re af = ⟨⟨false, keyFileMissingMsg⟩, af, false⟩
    ∧ addSshPublicKeys (some content) re af = ⟨⟨false, keyFileEmptyMsg⟩, af, false⟩
    ∧ keyFileMissingMsg ≠ keyFileEmptyMsg := by
  refine ⟨rfl, ?_, by decide⟩
  simp [addSshPublicKeys, h]

/-- Witness for `c8_key_file_preconditions`: a key file of blanks and
newlines has no non-whitespace content. -/
theorem c8_witness :
    addSshPublicKeys (some ([' ', '\n', '\t'])) true (some (['A']))
      = ⟨⟨false, keyFileEmptyMsg⟩, some (['A']), false⟩ :=
  (c8_key_file_preconditions true (some (['A'])) ([' ', '\n', '\t']) (by decide)).2.1

/-! ## The distro classifier (`get_linux_version`) and `install_openssh` -/

/-- Python `str.lower()` (ASCII range, sufficient for os-release keys and
ids). -/
def lowerStr (l : List Char) : List Char := l.map Char.toLower

/-- One line of `get_linux_version` (lines 64-67 of `lxc_ssh_setup.py`):
`line.split("=")`, then `item[0].lower()` and `item[1].replace('"', '')`.
When the line has no `=`, `split` yields a single element and the `item[1]`
subscript raises `IndexError`, modelled as `none`. -/
def parseLine (l : List Char) : Option (List Char × List Char) :=
  match splitOnC '=' l with
  | k :: v :: _ => some (lowerStr k, v.filter (fun c => !(c == '"')))
  | _ => none

/-- The parse by `get_linux_version` of the full `/etc/os-release` output: the
dict comprehension evaluates `parseLine` on every line, and a single
malformed line aborts the whole parse with `IndexError` (`none`). -/
def parseOsRelease : List (List Char) → Option (List (List Char × List Char))
  | [] => some []
  | l :: rest =>
    match parseLine l, parseOsRelease rest with
    | some kv, some kvs => some (kv :: kvs)
    | _, _ => none

/-- Modelled from the spec: "malformed lines (missing `=`) are skipped rather
than failing the whole parse" — the total skipping parse the spec describes,
absent from the code. -/
def parseOsReleaseSkipSpec (lines : List (List Char)) : List (List Char × List Char) :=
  lines.filterMap parseLine

/-- Reading a Python dict built from key/value pairs (later keys override
earlier ones) at a key. -/
def lookupKV (kvs : List (List Char × List Char)) (k : List Char) : Option (List Char) :=
  (kvs.reverse.find? (fun p => p.fst == k)).map Prod.snd

/-- The dict key used by `install_openssh` (`container['version']['id']`). -/
def idKey : List Char := ("id").toList

/-- The three install command families of lines 114-128 of
`lxc_ssh_setup.py`. -/
inductive InstallCmd
  | apkAddOpenssh
  | aptGetInstall
  | yumInstall
  deriving DecidableEq

/-- The id values accepted by the `if`/`elif` chain of lines 114-128. -/
def supportedIds : List (List Char) :=
  [("alpine").toList, ("debian").toList, ("ubuntu").toList,
   ("centos").toList, ("rhel").toList, ("fedora").toList]

/-- The install-command dispatch of lines 114-130 of `lxc_ssh_setup.py`:
the raw (quote-stripped, not case-normalized) id value is compared verbatim;
`none` is the `Unsupported Linux distribution` branch, in which no install
command is built or attempted. -/
def selectInstallCommand (theId : List Char) : Option InstallCmd :=
  if theId = ("alpine").toList then some InstallCmd.apkAddOpenssh
  else if theId = ("debian").toList ∨ theId = ("ubuntu").toList then
    some InstallCmd.aptGetInstall
  else if theId = ("centos").toList ∨ theId = ("rhel").toList
      ∨ theId = ("fedora").toList then
    some InstallCmd.yumInstall
  else none

/-- Modelled from the spec: "`family` derived from the case-normalized `id`
field" — the dispatch the spec describes, applied to the lower-cased id. -/
def selectInstallCommandSpec (theId : List Char) : Option InstallCmd :=
  selectInstallCommand (lowerStr theId)

/-- Message of line 130 of `lxc_ssh_setup.py`. -/
def unsupportedMsg (theId : List Char) : List Char :=
  ("Unsupported Linux distribution, ").toList ++ theId ++ (".").toList

/-- Message of line 97 of `lxc_ssh_setup.py`. -/
def alreadyConfMsg : List Char :=
  ("OpenSSH is already installed and properly configured.").toList

/-- Message of line 111 of `lxc_ssh_setup.py`. -/
def svcStartedMsg : List Char := ("SSH service started and enabled.").toList

/-- Message of line 138 of `lxc_ssh_setup.py`. -/
def installedMsg (vmid : List Char) : List Char :=
  ("OpenSSH successfully installed and configured in container ").toList
    ++ vmid ++ (".").toList

/-- Message of line 136 of `lxc_ssh_setup.py`. -/
def installFailedMsg (vmid err : List Char) : List Char :=
  ("Failed to install OpenSSH in container ").toList ++ vmid
    ++ (": ").toList ++ pyStrip err

/-- The container-side state probed and mutated by `install_openssh`:
whether `sshd` is on the search path, and whether the service is both
enabled/registered and active/started (the two-command check of lines
83-94, one boolean for either dialect). -/
structure InstState where
  installed : Bool
  svcOn : Bool
  deriving DecidableEq

/-- The function `install_openssh` (lines 70-138 of `lxc_ssh_setup.py`). `installOk` is
whether the install command of line 133 exits 0 (inspected at line 135);
`configureOk` is whether the enable+start command of line 110 succeeds — it
runs through `run_command_silently`, so the returned outcome does not depend
on it, but the service state only changes if it succeeds.  `installErr` is
the install command's captured stderr. -/
def installOpenssh (vmid theId : List Char) (st : InstState)
    (installOk configureOk : Bool) (installErr : List Char) : Outcome × InstState :=
  if st.installed then
    if st.svcOn then (⟨false, alreadyConfMsg⟩, st)
    else (⟨true, svcStartedMsg⟩, ⟨st.installed, configureOk⟩)
  else
    match selectInstallCommand theId with
    | none => (⟨false, unsupportedMsg theId⟩, st)
    | some _ =>
      if installOk then (⟨true, installedMsg vmid⟩, ⟨true, true⟩)
      else (⟨false, installFailedMsg vmid installErr⟩, st)

/-! ## Helper lemmas for the parse -/

theorem splitOnC_ne_nil (sep : Char) (l : List Char) : splitOnC sep l ≠ [] := by
  cases l with
  | nil => simp [splitOnC]
  | cons c rest =>
    unfold splitOnC
    split
    · simp
    · split <;> simp

theorem splitOnC_cons_cons_iff (sep : Char) (l : List Char) :
    (∃ a b t, splitOnC sep l = a :: b :: t) ↔ sep ∈ l := by
  induction l with
  | nil =>
    constructor
    · rintro ⟨a, b, t, h⟩; simp [splitOnC] at h
    · intro h; simp at h
  | cons c rest ih =>
    by_cases h : c = sep
    · subst h
      constructor
      · intro _; exact List.mem_cons_self c rest
      · intro _
        cases hs : splitOnC c rest with
        | nil => exact absurd hs (splitOnC_ne_nil c rest)
        | cons b t => exact ⟨[], b, t, by simp [splitOnC, hs]⟩
    · have hb : (c == sep) = false := by simp [h]
      constructor
      · rintro ⟨a, b, t, hsp⟩
        unfold splitOnC at hsp
        rw [hb] at hsp
        simp only [Bool.false_eq_true, if_false] at hsp
        cases hs : splitOnC sep rest with
        | nil => exact absurd hs (splitOnC_ne_nil sep rest)
        | cons s ss =>
          rw [hs] at hsp
          have hss : ss = b :: t := (List.cons.injEq _ _ _ _ ▸ hsp).2
          exact List.mem_cons_of_mem c (ih.mp ⟨s, b, t, by rw [hs, hss]⟩)
      · intro hmem
        rcases List.mem_cons.mp hmem with h1 | h2
        · exact absurd h1.symm h
        · obtain ⟨a, b, t, hs⟩ := ih.mpr h2
          exact ⟨c :: a, b, t, by simp [splitOnC, hb, hs]⟩

theorem parseLine_isSome_iff (l : List Char) :
    (parseLine l).isSome = true ↔ '=' ∈ l := by
  rw [← splitOnC_cons_cons_iff '=' l]
  unfold parseLine
  cases hs : splitOnC '=' l with
  | nil => exact absurd hs (splitOnC_ne_nil _ _)
  | cons k rest =>
    cases rest with
    | nil =>
      constructor
      · intro h; simp at h
      · rintro ⟨a, b, t, ht⟩
        simp at ht
    | cons v tail =>
      constructor
      · intro _; exact ⟨k, v, tail, rfl⟩
      · intro _; simp

/-! ## C7: the parse is not total -/

/-- C7 counterexample: the os-release output `ID=alpine` followed by the
malformed line `garbage` (no `=`) makes the code's parse raise `IndexError`
(modelled `none`), aborting the whole parse — whereas the skipping parse the
claim describes would succeed with the well-formed entry. -/
theorem c7_counterexample :
    parseOsRelease [("ID=alpine").toList, ("garbage").toList] = none
    ∧ parseOsReleaseSkipSpec [("ID=alpine").toList, ("garbage").toList]
      = [(idKey, ("alpine").toList)] := by
  refine ⟨?_, ?_⟩ <;> decide

/-- C7 (amended): the classifier's parse succeeds exactly when every line of
the os-release output contains an `=` separator; a line lacking `=` raises an
uncaught `IndexError` that aborts the whole parse, rather than being
skipped. -/
theorem c7_parse_totality (lines : List (List Char)) :
    (parseOsRelease lines).isSome = true ↔ ∀ l ∈ lines, '=' ∈ l := by
  induction lines with
  | nil => simp [parseOsRelease]
  | cons l rest ih =>
    unfold parseOsRelease
    constructor
    · intro h
      cases hp : parseLine l with
      | none =>
        rw [hp] at h
        cases hr : parseOsRelease rest <;> rw [hr] at h <;> simp at h
      | some kv =>
        cases hr : parseOsRelease rest with
        | none => rw [hp, hr] at h; simp at h
        | some kvs =>
          intro x hx
          rcases List.mem_cons.mp hx with hx1 | hx2
          · subst hx1; exact (parseLine_isSome_iff x).mp (by simp [hp])
          · exact (ih.mp (by simp [hr])) x hx2
    · intro h
      have h1 : '=' ∈ l := h l (List.mem_cons_self l rest)
      have h2 : ∀ x ∈ rest, '=' ∈ x := fun x hx => h x (List.mem_cons_of_mem l hx)
      obtain ⟨kv, hp⟩ := Option.isSome_iff_exists.mp ((parseLine_isSome_iff l).mpr h1)
      obtain ⟨kvs, hr⟩ := Option.isSome_iff_exists.mp (ih.mpr h2)
      rw [hp, hr]
      simp

/-! ## C6: distro dispatch is a verbatim, case-sensitive match -/

/-- C6 counterexample: the os-release value `Alpine` is stored verbatim (only
the key is lower-cased), and the claimed case-normalized dispatch would select
the alpine family for it — but the code compares the raw value and lands in
the unsupported branch, attempting no command. -/
theorem c6_counterexample :
    parseOsRelease [("ID=Alpine").toList] = some [(idKey, ("Alpine").toList)]
    ∧ selectInstallCommandSpec (("Alpine").toList) = some InstallCmd.apkAddOpenssh
    ∧ selectInstallCommand (("Alpine").toList) = none
    ∧ (installOpenssh (("101").toList) (("Alpine").toList) ⟨false, false⟩ true true []).fst
      = ⟨false, unsupportedMsg (("Alpine").toList)⟩ := by
  refine ⟨?_, ?_, ?_, ?_⟩ <;> decide

/-- C6 (amended): the id value is matched verbatim (quote-stripped but not
case-normalized): `alpine` selects the apk family, `debian`/`ubuntu` the
apt family, `centos`/`rhel`/`fedora` the yum family, and any other value —
including differently-cased spellings of the six — selects no install
command: `install_openssh` returns the unsupported-distribution no-op
without touching the container state. -/
theorem c6_dispatch_verbatim (theId vmid : List Char) (st : InstState)
    (iOk cOk : Bool) (ie : List Char)
    (hun : theId ∉ supportedIds) (hinst : st.installed = false) :
    selectInstallCommand (("alpine").toList) = some InstallCmd.apkAddOpenssh
    ∧ selectInstallCommand (("debian").toList) = some InstallCmd.aptGetInstall
    ∧ selectInstallCommand (("ubuntu").toList) = some InstallCmd.aptGetInstall
    ∧ selectInstallCommand (("centos").toList) = some InstallCmd.yumInstall
    ∧ selectInstallCommand (("rhel").toList) = some InstallCmd.yumInstall
    ∧ selectInstallCommand (("fedora").toList) = some InstallCmd.yumInstall
    ∧ selectInstallCommand theId = none
    ∧ installOpenssh vmid theId st iOk cOk ie = (⟨false, unsupportedMsg theId⟩, st) := by
  simp only [supportedIds, List.mem_cons, List.not_mem_nil, or_false, not_or] at hun
  obtain ⟨h1, h2, h3, h4, h5, h6⟩ := hun
  have hsel : selectInstallCommand theId = none := by
    unfold selectInstallCommand
    rw [if_neg h1, if_neg (not_or.mpr ⟨h2, h3⟩),
      if_neg (not_or.mpr ⟨h4, not_or.mpr ⟨h5, h6⟩⟩)]
  refine ⟨by decide, by decide, by decide, by decide, by decide, by decide, hsel, ?_⟩
  simp [installOpenssh, hinst, hsel]

/-- Witness for `c6_dispatch_verbatim` at the unsupported id `gentoo`. -/
theorem c6_witness :
    selectInstallCommand (("gentoo").toList) = none :=
  (c6_dispatch_verbatim (("gentoo").toList) (("101").toList) ⟨false, false⟩
    true true [] (by decide) rfl).2.2.2.2.2.2.1

/-! ## Helper lemmas for idempotence -/

theorem dropWhile_head_false (p : Char → Bool) :
    ∀ (l : List Char) (a : Char) (t : List Char),
      List.dropWhile p l = a :: t → p a = false := by
  intro l
  induction l with
  | nil => intro a t h; simp [List.dropWhile] at h
  | cons c cs ih =>
    intro a t h
    rw [List.dropWhile_cons] at h
    by_cases hc : p c = true
    · rw [if_pos hc] at h
      exact ih a t h
    · rw [if_neg hc] at h
      have hca : c = a := (List.cons.injEq _ _ _ _ ▸ h).1
      subst hca
      simpa using hc

/-- Writing back `pyStrip content` followed by the newline that `echo`
appends, then reading it again through `$(cat ...)`, recovers exactly
`pyStrip content` (a nonempty stripped text never ends in whitespace). -/
theorem stripTrailNl_pyStrip (c : List Char) (h : pyStrip c ≠ []) :
    stripTrailNl (pyStrip c ++ ['\n']) = pyStrip c := by
  unfold stripTrailNl
  rw [List.reverse_append]
  simp only [List.reverse_cons, List.reverse_nil, List.nil_append, List.singleton_append]
  rw [List.dropWhile_cons]
  simp only [beq_self_eq_true, if_true]
  have hrev : (pyStrip c).reverse = (c.dropWhile isPyWs).reverse.dropWhile isPyWs := by
    unfold pyStrip; rw [List.reverse_reverse]
  rw [hrev]
  cases hr : (c.dropWhile isPyWs).reverse.dropWhile isPyWs with
  | nil =>
    exfalso
    apply h
    unfold pyStrip
    rw [hr]
    rfl
  | cons a t =>
    have ha : isPyWs a = false := dropWhile_head_false isPyWs _ a t hr
    have hnl : (a == '\n') = false := by
      rw [beq_eq_false_iff_ne]
      intro he
      subst he
      simp [isPyWs] at ha
    rw [List.dropWhile_cons, if_neg (by simp [hnl])]
    unfold pyStrip
    rw [hr]

theorem dropPref_isPrefixOf (p : List Char) :
    ∀ (l t : List Char), dropPref p l = some t → p.isPrefixOf l = true := by
  induction p with
  | nil => intro l t _; simp [List.isPrefixOf]
  | cons a ps ih =>
    intro l t h
    cases l with
    | nil => simp [dropPref] at h
    | cons c cs =>
      unfold dropPref at h
      by_cases hac : (a == c) = true
      · rw [if_pos hac] at h
        simp only [List.isPrefixOf, hac, Bool.true_and]
        exact ih cs t h
      · rw [if_neg hac] at h
        simp at h

theorem matchesPARegex_hasSubstr (l : List Char) (h : matchesPARegex l = true) :
    hasSubstr paDirective l = true := by
  unfold matchesPARegex at h
  rcases Bool.or_eq_true_iff.mp h with h1 | h2
  · unfold startsPAWs at h1
    cases hd : dropPref paDirective l with
    | none => rw [hd] at h1; exact absurd h1 (by simp)
    | some t => exact isPrefixOf_hasSubstr _ _ (dropPref_isPrefixOf _ _ _ hd)
  · rcases Bool.and_eq_true_iff.mp h2 with ⟨hh, ht⟩
    cases l with
    | nil => simp at hh
    | cons c rest =>
      have hc : c = '#' := by simpa using hh
      have hpre : paDirective.isPrefixOf rest = true := by
        unfold startsPAWs at ht
        cases hd : dropPref paDirective (c :: rest).tail with
        | none => rw [hd] at ht; exact absurd ht (by simp)
        | some t => exact dropPref_isPrefixOf _ _ _ (by simpa using hd)
      have hrest : hasSubstr paDirective rest = true := isPrefixOf_hasSubstr _ _ hpre
      simp [hasSubstr, hrest]

theorem grepPA_ne_nil_of_match (lines : List (List Char)) (l0 : List Char)
    (hl0 : l0 ∈ lines) (hm0 : matchesPARegex l0 = true) :
    ¬ (grepPA lines).isEmpty = true := by
  rw [List.isEmpty_iff]
  intro hnil
  have hmem : l0 ∈ grepPA lines :=
    List.mem_filter.mpr ⟨hl0, matchesPARegex_hasSubstr l0 hm0⟩
  rw [hnil] at hmem
  simp at hmem

/-! ## C2: running a reconciler twice -/

/-- C2 counterexample: on a container whose `/etc/ssh/sshd_config` is absent,
`set_ssh_password_authentication` reports `changed = true` on the first call
and again `changed = true` on the second call with the same desired value —
refuting the claim that the second call always reports `changed = false`. -/
theorem c2_counterexample :
    (setPwAuth (("no").toList) none true 0).fst.changed = true
    ∧ (setPwAuth (("no").toList)
        (setPwAuth (("no").toList) none true 0).snd true 0).fst.changed = true := by
  exact ⟨rfl, rfl⟩

/-- C2 (amended): provided the remote mutation commands succeed, invoking a
reconciler twice in succession with the same desired configuration reports
`changed = false` on the second call — unconditionally for the
package/service reconciler and for the keys reconciler, and for the
password-auth reconciler whenever the config file exists and contains at
least one line matching the rewrite pattern
(optional `#`, then `PasswordAuthentication`, then whitespace); when the
config file is absent — or contains no rewritable directive line — the
password-auth reconciler reports `changed = true` on every call instead. -/
theorem c2_second_run_unchanged
    (vmid theId : List Char) (st : InstState) (iOk : Bool) (ie : List Char)
    (kf : Option (List Char)) (re : Bool) (af : Option (List Char))
    (status : List Char) (lines : List (List Char))
    (hline : lines.any matchesPARegex = true) :
    (installOpenssh vmid theId
      (installOpenssh vmid theId st iOk true ie).snd iOk true ie).fst.changed = false
    ∧ (addSshPublicKeys kf re (addSshPublicKeys kf re af).file).outcome.changed = false
    ∧ (setPwAuth status
        (setPwAuth status (some lines) true 0).snd true 0).fst.changed = false := by
  refine ⟨?_, ?_, ?_⟩
  · rcases st with ⟨inst, svc⟩
    cases inst <;> cases svc <;> cases iOk <;>
      cases hsel : selectInstallCommand theId <;>
      simp [installOpenssh, hsel]
  · cases kf with
    | none => rfl
    | some content =>
      by_cases hk : pyStrip content = []
      · simp [addSshPublicKeys, hk]
      · by_cases heq : scriptCandidate (pyStrip content) (readAuth af) re = readAuth af
        · simp [addSshPublicKeys, hk, heq]
        · have hre : re = true := by
            by_contra hre
            have hre2 : re = false := by simpa using hre
            subst hre2
            exact heq rfl
          subst hre
          have heq2 : ¬ pyStrip content = readAuth af := by
            simpa [scriptCandidate] using heq
          have h1 : addSshPublicKeys (some content) true af
              = ⟨⟨true, keysAddedMsg⟩, some (pyStrip content ++ ['\n']), true⟩ := by
            simp [addSshPublicKeys, hk, heq2, scriptCandidate]
          rw [h1]
          have hread : readAuth (some (pyStrip content ++ ['\n'])) = pyStrip content := by
            unfold readAuth
            exact stripTrailNl_pyStrip content hk
          simp [addSshPublicKeys, hk, scriptCandidate, hread]
  · obtain ⟨l0, hl0, hm0⟩ := List.any_eq_true.mp hline
    have hne : ¬ (grepPA lines).isEmpty = true := grepPA_ne_nil_of_match lines l0 hl0 hm0
    cases hpr : pwProbe status (some lines) with
    | indeterminate =>
      exfalso
      have hpr2 : (if (grepPA lines).isEmpty then Probe.indeterminate
          else if (grepPA lines).any (fun l => (paDirective ++ ' ' :: status).isPrefixOf l)
          then Probe.satisfied
          else Probe.unsatisfied) = Probe.indeterminate := hpr
      rw [if_neg hne] at hpr2
      by_cases hany :
          ((grepPA lines).any fun l => (paDirective ++ ' ' :: status).isPrefixOf l) = true
      · rw [if_pos hany] at hpr2; exact absurd hpr2 (by decide)
      · rw [if_neg hany] at hpr2; exact absurd hpr2 (by decide)
    | satisfied =>
      have hsnd : (setPwAuth status (some lines) true 0).snd = some lines := by
        unfold setPwAuth
        rw [hpr]
      rw [hsnd]
      unfold setPwAuth
      rw [hpr]
    | unsatisfied =>
      have hsnd : (setPwAuth status (some lines) true 0).snd
          = some (sedFile status lines) := by
        unfold setPwAuth
        rw [hpr]
        simp
      rw [hsnd]
      have hsat : pwProbe status (some (sedFile status lines)) = Probe.satisfied := by
        apply (pwProbe_satisfied_iff status (sedFile status lines)).mpr
        refine ⟨sedLine status l0, List.mem_map_of_mem _ hl0, ?_⟩
        have hdir : sedLine status l0 = paDirective ++ ' ' :: status := by
          simp [sedLine, hm0]
        rw [hdir, List.isPrefixOf_iff_prefix ]
      unfold setPwAuth
      rw [hsat]

/-- Witness for `c2_second_run_unchanged`: a config file with
`#PasswordAuthentication yes` contains a rewritable directive line, and the
second password-auth run reports no change. -/
theorem c2_witness :
    (setPwAuth (("no").toList)
      (setPwAuth (("no").toList)
        (some [("#PasswordAuthentication yes").toList]) true 0).snd
      true 0).fst.changed = false :=
  (c2_second_run_unchanged (("101").toList) (("alpine").toList) ⟨false, false⟩
    true [] (some (['K'])) true none (("no").toList)
    [("#PasswordAuthentication yes").toList] (by decide)).2.2

/-! ## The fleet coordinator (`main`) -/

/-- One record of the per-container progress report: a container is either
skipped (not running) or had the stage's work run against it. -/
inductive StageEntry
  | skipped
  | ran (o : Outcome)
  deriving DecidableEq

/-- The per-container state threaded through `main`'s four stage loops:
the identity fields of the `pct list` row, the raw `/etc/os-release` output,
the `version` dict once stage one stored it, and the container-side
SSH state used by the three reconcilers. -/
structure CState where
  name : List Char
  vmid : List Char
  running : Bool
  osRelease : List (List Char)
  version : Option (List (List Char × List Char))
  inst : InstState
  cfg : Option (List (List Char))
  keys : Option (List Char)
  deriving DecidableEq

/-- Stage one of `main` (lines 262-269): `get_linux_version` parses the
os-release output and the result is stored under `'version'`.  A malformed
line raises `IndexError` (`none`), aborting the run.  The loop records
progress but no changed/message outcome, modelled by a neutral outcome. -/
def stageVersion (c : CState) : Option (Outcome × CState) :=
  match parseOsRelease c.osRelease with
  | none => none
  | some kv => some (⟨false, []⟩, { c with version := some kv })

/-- Stage two of `main` (lines 271-281): `install_openssh`.  Reading
`container['version']['id']` raises `KeyError` (`none`) when the version
dict is missing or has no `id` entry.  Remote commands are modelled as
succeeding (`installOk = configureOk = true`). -/
def stageInstall (c : CState) : Option (Outcome × CState) :=
  match c.version with
  | none => none
  | some kv =>
    match lookupKV kv idKey with
    | none => none
    | some theId =>
      some ((installOpenssh c.vmid theId c.inst true true []).fst,
        { c with inst := (installOpenssh c.vmid theId c.inst true true []).snd })

/-- Stage three of `main` (lines 283-293): `set_ssh_password_authentication`
with desired value `no`; the sed rewrite is modelled as succeeding. -/
def stagePwAuth (c : CState) : Option (Outcome × CState) :=
  some ((setPwAuth (("no").toList) c.cfg true 0).fst,
    { c with cfg := (setPwAuth (("no").toList) c.cfg true 0).snd })

/-- Stage four of `main` (lines 295-306): `add_ssh_public_keys` with the
default `remove_existing=True`, reading the same `keys.pub` content `k`
for every container. -/
def stageKeys (k : List Char) (c : CState) : Option (Outcome × CState) :=
  some ((addSshPublicKeys (some k) true c.keys).outcome,
    { c with keys := (addSshPublicKeys (some k) true c.keys).file })

/-- One stage loop of `main`: every container of the fleet gets exactly one
entry; a running container has the stage function applied to it, a
non-running container is recorded as skipped and left untouched.  An
uncaught exception (`none`) aborts the whole run. -/
def runStageO (f : CState → Option (Outcome × CState)) :
    List CState → Option (List StageEntry × List CState)
  | [] => some ([], [])
  | c :: rest =>
    if c.running then
      match f c, runStageO f rest with
      | some (o, c2), some (es, cs) => some (StageEntry.ran o :: es, c2 :: cs)
      | _, _ => none
    else
      match runStageO f rest with
      | some (es, cs) => some (StageEntry.skipped :: es, c :: cs)
      | none => none

/-- The function `main` (lines 257-308 of `lxc_ssh_setup.py`): the version, install and
password-auth loops run unconditionally; the keys loop runs only when
`keys.pub` exists (`kf = some k`).  The result is the stage-by-stage report
together with the final fleet state, or `none` when an uncaught exception
aborted the run. -/
def mainRun (fleet : List CState) (kf : Option (List Char)) :
    Option (List (List StageEntry) × List CState) :=
  match runStageO stageVersion fleet with
  | none => none
  | some (e1, f1) =>
    match runStageO stageInstall f1 with
    | none => none
    | some (e2, f2) =>
      match runStageO stagePwAuth f2 with
      | none => none
      | some (e3, f3) =>
        match kf with
        | none => some ([e1, e2, e3], f3)
        | some k =>
          match runStageO (stageKeys k) f3 with
          | none => none
          | some (e4, f4) => some ([e1, e2, e3, e4], f4)

/-- A container whose os-release output parses and yields an `id` entry —
the condition under which `main`'s loops cannot raise on it. -/
def goodC (c : CState) : Bool :=
  match parseOsRelease c.osRelease with
  | none => false
  | some kv => (lookupKV kv idKey).isSome

/-! ## Helper lemmas for the fleet run -/

theorem runStageO_spec (f : CState → Option (Outcome × CState)) (P Q : CState → Prop)
    (hf : ∀ c, c.running = true → P c →
      ∃ o c2, f c = some (o, c2) ∧ c2.running = true ∧ Q c2) :
    ∀ fleet : List CState, (∀ c ∈ fleet, c.running = true → P c) →
      ∃ es cs, runStageO f fleet = some (es, cs)
        ∧ es.length = fleet.length
        ∧ cs.length = fleet.length
        ∧ (∀ c2 ∈ cs, c2.running = true → Q c2)
        ∧ (∀ (i : Nat) (c : CState), fleet[i]? = some c →
            ∃ c2, cs[i]? = some c2 ∧ c2.running = c.running
              ∧ (c.running = false → es[i]? = some StageEntry.skipped ∧ c2 = c)
              ∧ (c.running = true → ∃ o, es[i]? = some (StageEntry.ran o))) := by
  intro fleet
  induction fleet with
  | nil =>
    intro _
    refine ⟨[], [], rfl, rfl, rfl, ?_, ?_⟩
    · intro c2 h; simp at h
    · intro i c h; simp at h
  | cons c rest ih =>
    intro hP
    obtain ⟨es, cs, hrun, hel, hcl, hQ, hpt⟩ :=
      ih (fun x hx hrx => hP x (List.mem_cons_of_mem c hx) hrx)
    by_cases hr : c.running = true
    · obtain ⟨o, c2, hfc, hr2, hQ2⟩ := hf c hr (hP c (List.mem_cons_self c rest) hr)
      refine ⟨StageEntry.ran o :: es, c2 :: cs, ?_, by simp [hel], by simp [hcl], ?_, ?_⟩
      · unfold runStageO
        rw [if_pos hr, hfc, hrun]
      · intro x hx hrx
        rcases List.mem_cons.mp hx with h1 | h2
        · subst h1; exact hQ2
        · exact hQ x h2 hrx
      · intro i cc hcc
        cases i with
        | zero =>
          rw [List.getElem?_cons_zero] at hcc
          have hcceq : cc = c := by injection hcc with h; exact h.symm
          subst hcceq
          refine ⟨c2, by simp, by rw [hr2, hr], ?_, ?_⟩
          · intro hfalse; rw [hfalse] at hr; cases hr
          · intro _; exact ⟨o, by simp⟩
        | succ j =>
          rw [List.getElem?_cons_succ] at hcc
          obtain ⟨c3, hc3, hre, hfa, htr⟩ := hpt j cc hcc
          refine ⟨c3, by simpa using hc3, hre, ?_, ?_⟩
          · intro hfalse
            obtain ⟨hskip, hceq⟩ := hfa hfalse
            exact ⟨by simpa using hskip, hceq⟩
          · intro htrue
            obtain ⟨o2, ho2⟩ := htr htrue
            exact ⟨o2, by simpa using ho2⟩
    · have hrf : c.running = false := by simpa using hr
      refine ⟨StageEntry.skipped :: es, c :: cs, ?_, by simp [hel], by simp [hcl], ?_, ?_⟩
      · unfold runStageO
        rw [if_neg hr, hrun]
      · intro x hx hrx
        rcases List.mem_cons.mp hx with h1 | h2
        · subst h1; rw [hrx] at hrf; cases hrf
        · exact hQ x h2 hrx
      · intro i cc hcc
        cases i with
        | zero =>
          rw [List.getElem?_cons_zero] at hcc
          have hcceq : cc = c := by injection hcc with h; exact h.symm
          subst hcceq
          refine ⟨cc, by simp, rfl, ?_, ?_⟩
          · intro _; exact ⟨by simp, rfl⟩
          · intro htrue; rw [htrue] at hrf; cases hrf
        | succ j =>
          rw [List.getElem?_cons_succ] at hcc
          obtain ⟨c3, hc3, hre, hfa, htr⟩ := hpt j cc hcc
          refine ⟨c3, by simpa using hc3, hre, ?_, ?_⟩
          · intro hfalse
            obtain ⟨hskip, hceq⟩ := hfa hfalse
            exact ⟨by simpa using hskip, hceq⟩
          · intro htrue
            obtain ⟨o2, ho2⟩ := htr htrue
            exact ⟨o2, by simpa using ho2⟩

theorem stageVersion_hf (c : CState) (hr : c.running = true) (hg : goodC c = true) :
    ∃ o c2, stageVersion c = some (o, c2) ∧ c2.running = true
      ∧ (∃ kv, c2.version = some kv ∧ (lookupKV kv idKey).isSome = true) := by
  unfold goodC at hg
  cases hp : parseOsRelease c.osRelease with
  | none => rw [hp] at hg; cases hg
  | some kv =>
    rw [hp] at hg
    refine ⟨⟨false, []⟩, { c with version := some kv }, ?_, hr, kv, rfl, hg⟩
    unfold stageVersion
    rw [hp]

theorem stageInstall_hf (c : CState) (hr : c.running = true)
    (hv : ∃ kv, c.version = some kv ∧ (lookupKV kv idKey).isSome = true) :
    ∃ o c2, stageInstall c = some (o, c2) ∧ c2.running = true ∧ True := by
  obtain ⟨kv, hkv, hid⟩ := hv
  obtain ⟨theId, hthe⟩ := Option.isSome_iff_exists.mp hid
  refine ⟨(installOpenssh c.vmid theId c.inst true true []).fst,
    { c with inst := (installOpenssh c.vmid theId c.inst true true []).snd },
    ?_, hr, trivial⟩
  unfold stageInstall
  rw [hkv]
  simp [hthe]

/-! ## C9: completeness of the fleet run -/

/-- C9 (amended): provided every running container's os-release output parses
(every line has an `=`) and yields an `id` entry, the fleet run completes and
produces one report per stage (four stages when `keys.pub` exists, three
otherwise), each containing exactly one entry per container; every
non-running container is recorded as skipped at every stage and its state is
untouched (no reconciler is invoked on it), and every running container has
every stage run against it.  Without that proviso the run can abort with an
uncaught exception and produce no report at all (see the counterexample). -/
theorem c9_fleet_report (fleet : List CState) (kf : Option (List Char))
    (hgood : ∀ c ∈ fleet, c.running = true → goodC c = true) :
    ∃ report final, mainRun fleet kf = some (report, final)
      ∧ report.length = (match kf with | some _ => 4 | none => 3)
      ∧ (∀ st ∈ report, st.length = fleet.length)
      ∧ (∀ (i : Nat) (c : CState), fleet[i]? = some c → c.running = false →
          (∀ st ∈ report, st[i]? = some StageEntry.skipped) ∧ final[i]? = some c)
      ∧ (∀ (i : Nat) (c : CState), fleet[i]? = some c → c.running = true →
          ∀ st ∈ report, ∃ o, st[i]? = some (StageEntry.ran o)) := by
  obtain ⟨e1, f1, hrun1, hl1, hcl1, hQ1, hpt1⟩ :=
    runStageO_spec stageVersion (fun c => goodC c = true)
      (fun c => ∃ kv, c.version = some kv ∧ (lookupKV kv idKey).isSome = true)
      (fun c hr hg => stageVersion_hf c hr hg) fleet hgood
  obtain ⟨e2, f2, hrun2, hl2, hcl2, hQ2, hpt2⟩ :=
    runStageO_spec stageInstall
      (fun c => ∃ kv, c.version = some kv ∧ (lookupKV kv idKey).isSome = true)
      (fun _ => True)
      (fun c hr hv => stageInstall_hf c hr hv) f1 hQ1
  obtain ⟨e3, f3, hrun3, hl3, hcl3, hQ3, hpt3⟩ :=
    runStageO_spec stagePwAuth (fun _ => True) (fun _ => True)
      (fun c hr _ => ⟨_, _, rfl, hr, trivial⟩) f2 (fun _ _ _ => trivial)
  cases kf with
  | none =>
    refine ⟨[e1, e2, e3], f3, ?_, rfl, ?_, ?_, ?_⟩
    · simp only [mainRun, hrun1, hrun2, hrun3]
    · intro st hst
      simp only [List.mem_cons, List.not_mem_nil, or_false] at hst
      rcases hst with h | h | h
      · rw [h, hl1]
      · rw [h, hl2, hcl1]
      · rw [h, hl3, hcl2, hcl1]
    · intro i c hc hcr
      obtain ⟨c1, hc1, _, hfa1, _⟩ := hpt1 i c hc
      obtain ⟨he1, hceq1⟩ := hfa1 hcr
      subst hceq1
      obtain ⟨c2, hc2, _, hfa2, _⟩ := hpt2 i c1 hc1
      obtain ⟨he2, hceq2⟩ := hfa2 hcr
      subst hceq2
      obtain ⟨c3, hc3, _, hfa3, _⟩ := hpt3 i c2 hc2
      obtain ⟨he3, hceq3⟩ := hfa3 hcr
      subst hceq3
      refine ⟨?_, hc3⟩
      intro st hst
      simp only [List.mem_cons, List.not_mem_nil, or_false] at hst
      rcases hst with h | h | h <;> rw [h] <;> assumption
    · intro i c hc hcr
      obtain ⟨c1, hc1, hre1, _, htr1⟩ := hpt1 i c hc
      obtain ⟨o1, he1⟩ := htr1 hcr
      have hr1 : c1.running = true := by rw [hre1, hcr]
      obtain ⟨c2, hc2, hre2, _, htr2⟩ := hpt2 i c1 hc1
      obtain ⟨o2, he2⟩ := htr2 hr1
      have hr2 : c2.running = true := by rw [hre2, hr1]
      obtain ⟨c3, hc3, hre3, _, htr3⟩ := hpt3 i c2 hc2
      obtain ⟨o3, he3⟩ := htr3 hr2
      intro st hst
      simp only [List.mem_cons, List.not_mem_nil, or_false] at hst
      rcases hst with h | h | h
      · exact ⟨o1, by rw [h]; exact he1⟩
      · exact ⟨o2, by rw [h]; exact he2⟩
      · exact ⟨o3, by rw [h]; exact he3⟩
  | some k =>
    obtain ⟨e4, f4, hrun4, hl4, hcl4, hQ4, hpt4⟩ :=
      runStageO_spec (stageKeys k) (fun _ => True) (fun _ => True)
        (fun c hr _ => ⟨_, _, rfl, hr, trivial⟩) f3 (fun _ _ _ => trivial)
    refine ⟨[e1, e2, e3, e4], f4, ?_, rfl, ?_, ?_, ?_⟩
    · simp only [mainRun, hrun1, hrun2, hrun3, hrun4]
    · intro st hst
      simp only [List.mem_cons, List.not_mem_nil, or_false] at hst
      rcases hst with h | h | h | h
      · rw [h, hl1]
      · rw [h, hl2, hcl1]
      · rw [h, hl3, hcl2, hcl1]
      · rw [h, hl4, hcl3, hcl2, hcl1]
    · intro i c hc hcr
      obtain ⟨c1, hc1, _, hfa1, _⟩ := hpt1 i c hc
      obtain ⟨he1, hceq1⟩ := hfa1 hcr
      subst hceq1
      obtain ⟨c2, hc2, _, hfa2, _⟩ := hpt2 i c1 hc1
      obtain ⟨he2, hceq2⟩ := hfa2 hcr
      subst hceq2
      obtain ⟨c3, hc3, _, hfa3, _⟩ := hpt3 i c2 hc2
      obtain ⟨he3, hceq3⟩ := hfa3 hcr
      subst hceq3
      obtain ⟨c4, hc4, _, hfa4, _⟩ := hpt4 i c3 hc3
      obtain ⟨he4, hceq4⟩ := hfa4 hcr
      subst hceq4
      refine ⟨?_, hc4⟩
      intro st hst
      simp only [List.mem_cons, List.not_mem_nil, or_false] at hst
      rcases hst with h | h | h | h <;> rw [h] <;> assumption
    · intro i c hc hcr
      obtain ⟨c1, hc1, hre1, _, htr1⟩ := hpt1 i c hc
      obtain ⟨o1, he1⟩ := htr1 hcr
      have hr1 : c1.running = true := by rw [hre1, hcr]
      obtain ⟨c2, hc2, hre2, _, htr2⟩ := hpt2 i c1 hc1
      obtain ⟨o2, he2⟩ := htr2 hr1
      have hr2 : c2.running = true := by rw [hre2, hr1]
      obtain ⟨c3, hc3, hre3, _, htr3⟩ := hpt3 i c2 hc2
      obtain ⟨o3, he3⟩ := htr3 hr2
      have hr3 : c3.running = true := by rw [hre3, hr2]
      obtain ⟨c4, hc4, hre4, _, htr4⟩ := hpt4 i c3 hc3
      obtain ⟨o4, he4⟩ := htr4 hr3
      intro st hst
      simp only [List.mem_cons, List.not_mem_nil, or_false] at hst
      rcases hst with h | h | h | h
      · exact ⟨o1, by rw [h]; exact he1⟩
      · exact ⟨o2, by rw [h]; exact he2⟩
      · exact ⟨o3, by rw [h]; exact he3⟩
      · exact ⟨o4, by rw [h]; exact he4⟩

/-- A running container with a well-formed one-line os-release. -/
def cRun : CState :=
  ⟨("ct1").toList, ("101").toList, true, [("ID=alpine").toList],
    none, ⟨false, false⟩, none, none⟩

/-- A non-running container. -/
def cStopped : CState :=
  ⟨("ct2").toList, ("102").toList, false, [],
    none, ⟨false, false⟩, none, none⟩

/-- A running container whose os-release output contains a line without
`=`. -/
def cBadRelease : CState :=
  ⟨("ct3").toList, ("103").toList, true, [("garbage").toList],
    none, ⟨false, false⟩, none, none⟩

/-- C9 counterexample: a fleet whose first running container has a malformed
os-release line makes the whole run abort with an uncaught `IndexError`
(modelled `none`): no report is produced at all, and the second container is
never processed — refuting the unconditional claim that the run always
processes every container and yields a complete per-container report. -/
theorem c9_counterexample :
    mainRun [cBadRelease, cStopped] (some (['K'])) = none := by
  rfl

/-- Witness for `c9_fleet_report` on a concrete two-container fleet. -/
theorem c9_witness :
    ∃ report final, mainRun [cRun, cStopped] (some (['K'])) = some (report, final)
      ∧ report.length = (match some (['K']) with | some _ => 4 | none => 3)
      ∧ (∀ st ∈ report, st.length = ([cRun, cStopped] : List CState).length)
      ∧ (∀ (i : Nat) (c : CState), ([cRun, cStopped] : List CState)[i]? = some c → c.running = false →
          (∀ st ∈ report, st[i]? = some StageEntry.skipped) ∧ final[i]? = some c)
      ∧ (∀ (i : Nat) (c : CState), ([cRun, cStopped] : List CState)[i]? = some c → c.running = true →
          ∀ st ∈ report, ∃ o, st[i]? = some (StageEntry.ran o)) :=
  c9_fleet_report [cRun, cStopped] (some (['K'])) (by decide)

end LxcSsh
